import Mathlib

/-!
Verification development for the mpts per-PID PES reconstruction and
codec-analysis engine (H.266/VVC NAL analyzer and MPEG-H MHAS analyzer).

Definitions are shallow embeddings of the Go source:
- `src/internal/h266.go` (H.266/VVC record), and
- the MPEG-H audio record source file.
Bytes are modelled as `Nat` (values 0..255 in practice), byte buffers as
`List Nat`, and Go `int64` fields as `Int`.

The bit `Reader`, the PES-header parser primitive (`PesPkt.Read`) and the
`BaseRecord` logging facilities are not part of the given sources; they are
modelled from the specification and marked as such in their doc comments.
Loops are embedded with an explicit fuel argument so that every definition
computes; sufficiency of the fuel supplied by the wrappers is proved below
(see the termination theorem for the MHAS scan loop).
-/

namespace Mpts

/-- Modelled from the spec: the bit-addressable stream reader used by the
MHAS analyzer ("parsed as a bit-addressable stream with a byte+bit cursor").
`Data` is the byte buffer, `Base` the byte cursor, `Off` the bit offset
within the current byte (bit 0 is the most significant bit). The concrete
`Reader` implementation is external to the given source files. -/
structure Reader where
  Data : List Nat
  Base : Nat
  Off : Fin 8
  deriving DecidableEq, Repr

/-- Absolute bit position of the cursor. -/
def Reader.bitPos (r : Reader) : Nat := 8 * r.Base + r.Off.val

/-- Modelled from the spec: read one bit (MSB first) and advance the
byte+bit cursor by one bit. Reading past the end of `Data` yields 0 bits
(the given sources never decide a claim on out-of-range reads). -/
def Reader.ReadBit (r : Reader) : Nat × Reader :=
  let bit := ((r.Data.getD r.Base 0) >>> (7 - r.Off.val)) &&& 1
  if h : r.Off.val < 7 then
    (bit, { r with Off := ⟨r.Off.val + 1, by omega⟩ })
  else
    (bit, { r with Base := r.Base + 1, Off := ⟨0, by omega⟩ })

/-- Modelled from the spec: read `n` bits MSB-first as an unsigned value,
advancing the cursor by exactly `n` bits. -/
def Reader.ReadBit64 (r : Reader) : Nat → Nat × Reader
  | 0 => (0, r)
  | n + 1 =>
    let (b, r1) := r.ReadBit
    let (rest, r2) := r1.ReadBit64 n
    (b * 2 ^ n + rest, r2)

/-- Modelled from the spec: advance the byte cursor by `n` bytes. -/
def Reader.SkipByte (r : Reader) (n : Nat) : Reader :=
  { r with Base := r.Base + n }

/-- Shallow embedding of `parseEscapedValue` (MHAS escapedValue decoding,
ISO/IEC 23008-3), translated from the source: read `nBits` bits; if the
value saturates, read `mBits` more and add; if that also saturates, read
`kBits` more and add. -/
def parseEscapedValue (r : Reader) (nBits mBits kBits : Nat) : Nat × Reader :=
  let val := (r.ReadBit64 nBits).1
  let r1 := (r.ReadBit64 nBits).2
  let maxVal := (1 <<< nBits) - 1
  if val = maxVal then
    let val2 := (r1.ReadBit64 mBits).1
    let r2 := (r1.ReadBit64 mBits).2
    let maxVal2 := (1 <<< mBits) - 1
    if val2 = maxVal2 then
      let val3 := (r2.ReadBit64 kBits).1
      let r3 := (r2.ReadBit64 kBits).2
      (val + val2 + val3, r3)
    else
      (val + val2, r2)
  else
    (val, r1)

/-- The fixed 32-entry VVC/H.266 NAL-unit-type table (`VvcNalUnitType`). -/
def VvcNalUnitType : List String :=
  ["trail_nvc",      -- 0
   "stsa_nvc",       -- 1
   "radl_nvc",       -- 2
   "rasl_nvc",       -- 3
   "rsv_vcl_4",      -- 4
   "rsv_vcl_5",      -- 5
   "rsv_vcl_6",      -- 6
   "idr_w_radl",     -- 7
   "idr_n_lp",       -- 8
   "cra_nut",        -- 9
   "gdr_nut",        -- 10
   "rsv_irap_11",    -- 11
   "opi_nut",        -- 12
   "dci_nut",        -- 13
   "vps_nut",        -- 14
   "sps_nut",        -- 15
   "pps_nut",        -- 16
   "prefix_aps_nut", -- 17
   "suffix_aps_nut", -- 18
   "ph_nut",         -- 19
   "aud_nut",        -- 20
   "eob_nut",        -- 21
   "eos_nut",        -- 22
   "prefix_sei_nut", -- 23
   "suffix_sei_nut", -- 24
   "fd_nut",         -- 25
   "rsv_nvcl_26",    -- 26
   "rsv_nvcl_27",    -- 27
   "unspec_28",      -- 28
   "unspec_29",      -- 29
   "unspec_30",      -- 30
   "unspec_31"]      -- 31

/-- Shallow embedding of `GetVvcNalUnitType`: the NAL-unit type index is
`(b >> 3) & 0x1F` of the second NAL header byte; in-range indices are looked
up in the table, out-of-range ones fall back to "unknown". -/
def GetVvcNalUnitType (b : Nat) : String :=
  let nalType := (b >>> 3) &&& 0x1F
  if nalType < VvcNalUnitType.length then VvcNalUnitType.getD nalType "unknown"
  else "unknown"

/-- Whether the 3-byte start code `00 00 01` occurs at byte offset `p`
(out-of-range reads use the default 256, which never matches). -/
def markerAtB (d : List Nat) (p : Nat) : Bool :=
  d.getD p 256 == 0 && d.getD (p + 1) 256 == 0 && d.getD (p + 2) 256 == 1

/-- All offsets at which the start code `00 00 01` occurs. -/
def markerPositions (d : List Nat) : List Nat :=
  (List.range d.length).filter (markerAtB d)

/-- Fuelled embedding of the scan loop of `ParseVvcNalUnits`:
`for pos+5 < len(data)`, compare `data[pos:pos+3]` with the start code;
on a match advance past it, read the second NAL header byte
(`data[pos+1]` after `pos += 3`), classify it, and continue at the byte
after the header start. -/
def parseVvcLoop : Nat → List Nat → Nat → List String
  | 0, _, _ => []
  | fuel + 1, d, pos =>
    if pos + 5 < d.length then
      if markerAtB d pos then
        -- pos += 3; read data[pos+1]; pos += 1
        if pos + 3 + 1 < d.length then
          GetVvcNalUnitType (d.getD (pos + 3 + 1) 0) :: parseVvcLoop fuel d (pos + 3 + 1)
        else
          parseVvcLoop fuel d (pos + 3 + 1)
      else
        parseVvcLoop fuel d (pos + 1)
    else []

/-- Shallow embedding of `ParseVvcNalUnits`. The fuel `d.length + 1` is
sufficient because the scan position strictly increases each iteration. -/
def ParseVvcNalUnits (d : List Nat) : List String :=
  parseVvcLoop (d.length + 1) d 0

/-- The condition of the RAP loop in `H266Record.Process`: IDR and CRA
NAL units are random access points. -/
def isVvcRapNal (nal : String) : Bool :=
  nal == "idr_w_radl" || nal == "idr_n_lp" || nal == "cra_nut"

/-- `IFrameInfo` as used by the record types (`Pos`, `Pts`, `Key`). -/
structure IFrameInfo where
  Pos : Int
  Pts : Int
  Key : Bool
  deriving DecidableEq, Repr

/-- `PesPkt`: the per-PID PES packet accumulator. -/
structure PesPkt where
  Pos : Int
  Pts : Int
  Dts : Int
  Pcr : Int
  Size : Int
  Data : List Nat
  deriving DecidableEq, Repr

/-- `TsPkt`: the transport packet fields consumed by `Process`
(`Pos`, the `PUSI` flag, and the payload bytes). -/
structure TsPkt where
  Pos : Int
  PUSI : Nat
  Data : List Nat
  deriving DecidableEq, Repr

/-- `NalInfo`: one structural-unit record of the H.266 analyzer. -/
structure NalInfo where
  Pos : Int
  Pts : Int
  Nals : List String
  deriving DecidableEq, Repr

/-- Modelled from the spec: the external PES-header parser primitive
("given bytes beginning with marker `00 00 01` and at least 19 bytes
available, returns `(headerLength, Pts, Dts)`"). The concrete parser is
not among the given source files, so record operations are parameterized
over it. -/
def HeaderParser : Type := List Nat → Nat × Int × Int

/-- Modelled from the spec: `PesPkt.Read` applies the external PES-header
parser, stores the extracted `Pts`/`Dts` on the packet, and returns the
parsed header length. -/
def PesPkt.Read (hp : HeaderParser) (p : PesPkt) (data : List Nat) : PesPkt × Nat :=
  let hlen := (hp data).1
  let pts := (hp data).2.1
  let dts := (hp data).2.2
  ({ p with Pts := pts, Dts := dts }, hlen)

/-- `H266Record` state: `PcrTime` is the inherited `BaseRecord` clock
sample; `IFrames` models the `BaseRecord.LogIFrame` random-access event
log (modelled from the spec: "synchronously record one RandomAccessEvent
(side effect, logged immediately)", since `BaseRecord` is external to the
given sources). The remaining fields mirror the Go struct. -/
structure H266Record where
  PcrTime : Int
  IFrames : List IFrameInfo
  curpkt : Option PesPkt
  Pkts : List PesPkt
  NalInfos : List NalInfo
  WorkaroundPESFlag : Bool
  WorkaroundPES : List Nat
  deriving DecidableEq, Repr

/-- `minVvcPesHeaderLen` (= `minMpeghAudioPesHeaderLen`): the minimum
viable PES header length. -/
def minPesHeaderLen : Nat := 19

/-- The finalization block of `H266Record.Process` (run when a `PUSI`
packet arrives and a current packet exists): parse the NAL units of the
accumulated payload, log one `IFrameInfo` per RAP NAL classification,
append the `NalInfo` record and the finalized packet to the histories. -/
def H266Record.finalizeCur (s : H266Record) : H266Record :=
  match s.curpkt with
  | some cur =>
    let nals := ParseVvcNalUnits cur.Data
    let frames := nals.foldl
      (fun acc nal =>
        if isVvcRapNal nal then acc ++ [⟨cur.Pos, cur.Pts, true⟩] else acc)
      s.IFrames
    { s with
        IFrames := frames,
        NalInfos := s.NalInfos ++ [⟨cur.Pos, cur.Pts, nals⟩],
        Pkts := s.Pkts ++ [cur] }
  | none => s

/-- The new-packet block of `H266Record.Process`: start a new current
`PesPkt` at the transport packet position with the latest clock sample;
if at least 19 payload bytes are available and they begin with the start
code, parse the PES header and drop it from the payload; on a marker
mismatch keep the payload (only a log line in the source); on a short
payload enter workaround mode with an emptied workaround buffer.
Returns the updated state and the remaining payload bytes. -/
def H266Record.startNew (hp : HeaderParser) (s : H266Record) (pkt : TsPkt) :
    H266Record × List Nat :=
  let cur0 : PesPkt := { Pos := pkt.Pos, Pts := 0, Dts := 0, Pcr := s.PcrTime,
                         Size := 0, Data := [] }
  if minPesHeaderLen ≤ pkt.Data.length then
    if pkt.Data.take 3 = [0, 0, 1] then
      let (cur1, hlen) := cur0.Read hp pkt.Data
      ({ s with curpkt := some cur1 }, pkt.Data.drop hlen)
    else
      -- log.Println("PES start code error")
      ({ s with curpkt := some cur0 }, pkt.Data)
  else
    -- log.Println("Workaround for pkt: ...")
    ({ s with curpkt := some cur0, WorkaroundPESFlag := true, WorkaroundPES := [] },
     pkt.Data)

/-- The workaround block of `H266Record.Process`: while the workaround
flag is set, append the call's payload to the workaround buffer and
suppress normal accumulation; once the buffer holds at least 19 bytes and
begins with the start code, parse the header from it, hand the post-header
surplus on as the payload, and clear the flag (the buffer itself is left
as is). Returns the updated state and the payload for accumulation. -/
def H266Record.workaroundStage (hp : HeaderParser) (s : H266Record)
    (pdata : List Nat) : H266Record × List Nat :=
  if s.WorkaroundPESFlag then
    let buf := s.WorkaroundPES ++ pdata
    if minPesHeaderLen ≤ buf.length then
      if buf.take 3 = [0, 0, 1] then
        match s.curpkt with
        | some cur =>
          let (cur1, hlen) := cur.Read hp buf
          ({ s with curpkt := some cur1, WorkaroundPES := buf,
                    WorkaroundPESFlag := false },
           buf.drop hlen)
        | none =>
          -- unreachable in the source: a nil dereference would panic here
          ({ s with WorkaroundPES := buf }, [])
      else
        -- log.Println("PES start code error")
        ({ s with WorkaroundPES := buf }, [])
    else
      ({ s with WorkaroundPES := buf }, [])
  else (s, pdata)

/-- The accumulation block of `H266Record.Process`: append the remaining
payload to the current packet and grow its size. -/
def H266Record.accumulate (s : H266Record) (pdata : List Nat) : H266Record :=
  match s.curpkt with
  | some cur =>
    { s with curpkt := some { cur with Size := cur.Size + pdata.length,
                                       Data := cur.Data ++ pdata } }
  | none => s

/-- Shallow embedding of `H266Record.Process`, composed of the source's
three blocks: `PUSI` handling (finalize + start new), workaround buffer
handling, and payload accumulation. -/
def H266Record.Process (hp : HeaderParser) (s : H266Record) (pkt : TsPkt) :
    H266Record :=
  let step1 : H266Record × List Nat :=
    if pkt.PUSI = 1 then (s.finalizeCur).startNew hp pkt else (s, pkt.Data)
  let step2 := (step1.1).workaroundStage hp step1.2
  (step2.1).accumulate step2.2

/-- Shallow embedding of `H266Record.Flush`: append the outstanding
packet's `NalInfo` record and the packet itself to the histories.
No random-access logging is performed here. -/
def H266Record.Flush (s : H266Record) : H266Record :=
  match s.curpkt with
  | some cur =>
    let nals := ParseVvcNalUnits cur.Data
    { s with
        NalInfos := s.NalInfos ++ [⟨cur.Pos, cur.Pts, nals⟩],
        Pkts := s.Pkts ++ [cur] }
  | none => s

/-- The per-packet row of the `<PID>.csv` report (columns
`Pos, Size, PCR, PTS, DTS, (DTS-PCR)`), translated from the report loop
shared by both analyzers: `pcr := p.Pcr / 300` (Go `int64` division
truncates toward zero, hence `Int.tdiv`); `dts := p.Dts`, replaced by
`p.Pts` when zero. -/
def pesReportRow (p : PesPkt) : List Int :=
  let pcr := Int.tdiv p.Pcr 300
  let dts := if p.Dts = 0 then p.Pts else p.Dts
  [p.Pos, p.Size, pcr, p.Pts, dts, dts - pcr]

/-- The rows of the H.266 record's `<PID>.csv` report, in history order. -/
def H266Record.ReportRows (s : H266Record) : List (List Int) :=
  s.Pkts.map pesReportRow

/-- The fixed MPEG-H 3D Audio packet-type name table
(`MpeghAudioPacketType`). -/
def MpeghAudioPacketType : List String :=
  ["PACTYP_FILLDATA",        -- 0
   "PACTYP_MPEGH3DACFG",     -- 1
   "PACTYP_MPEGH3DAFRAME",   -- 2
   "PACTYP_AUDIOSCENEINFO",  -- 3
   "PACTYP_SYNC",            -- 6
   "PACTYP_SYNCGAP",         -- 7
   "PACTYP_MARKER",          -- 8
   "PACTYP_CRC16",           -- 9
   "PACTYP_CRC32",           -- 10
   "PACTYP_DESCRIPTOR",      -- 11
   "PACTYP_USERINTERACTION", -- 12
   "PACTYP_LOUDNESS_DRC",    -- 13
   "PACTYP_BUFFERINFO",      -- 14
   "PACTYP_GLOBAL_CRC16",    -- 15
   "PACTYP_GLOBAL_CRC32",    -- 16
   "PACTYP_AUDIOTRUNCATION", -- 17
   "PACTYP_GENDATA"]         -- 18

/-- The packet-type code map built by `GetMpeghAudioPacketType`
(codes 0-3 and 6-18 map to table entries, codes 4 and 5 are absent). -/
def mpeghTypeMap : List (Nat × String) :=
  [(0,  MpeghAudioPacketType.getD 0 ""),
   (1,  MpeghAudioPacketType.getD 1 ""),
   (2,  MpeghAudioPacketType.getD 2 ""),
   (3,  MpeghAudioPacketType.getD 3 ""),
   (6,  MpeghAudioPacketType.getD 4 ""),
   (7,  MpeghAudioPacketType.getD 5 ""),
   (8,  MpeghAudioPacketType.getD 6 ""),
   (9,  MpeghAudioPacketType.getD 7 ""),
   (10, MpeghAudioPacketType.getD 8 ""),
   (11, MpeghAudioPacketType.getD 9 ""),
   (12, MpeghAudioPacketType.getD 10 ""),
   (13, MpeghAudioPacketType.getD 11 ""),
   (14, MpeghAudioPacketType.getD 12 ""),
   (15, MpeghAudioPacketType.getD 13 ""),
   (16, MpeghAudioPacketType.getD 14 ""),
   (17, MpeghAudioPacketType.getD 15 ""),
   (18, MpeghAudioPacketType.getD 16 "")]

/-- Shallow embedding of `GetMpeghAudioPacketType`: look the code up in
the map, falling back to `"unknown_<code>"`. -/
def GetMpeghAudioPacketType (packetType : Nat) : String :=
  match mpeghTypeMap.lookup packetType with
  | some s => s
  | none => "unknown_" ++ toString packetType

/-- One MHAS packet-header parse of `parseMhasPackets`: decode
`MHASPacketType` = escapedValue(3,8,8), `MHASPacketLabel` =
escapedValue(2,8,32) (consumed, unused), `MHASPacketLength` =
escapedValue(11,24,24). Returns the type, the length, and the reader
positioned after the header. -/
def mhasStep (r : Reader) : Nat × Nat × Reader :=
  let packetType := (parseEscapedValue r 3 8 8).1
  let r1 := (parseEscapedValue r 3 8 8).2
  -- packetLabel: parsed only to keep the cursor aligned
  let r2 := (parseEscapedValue r1 2 8 32).2
  let packetLength := (parseEscapedValue r2 11 24 24).1
  let r3 := (parseEscapedValue r2 11 24 24).2
  (packetType, packetLength, r3)

/-- The corrupt-length test of `parseMhasPackets`:
Go `packetLength > uint64(len(data)-r.Base)` — the `int64` difference is
converted to `uint64`, i.e. taken modulo 2^64. -/
def mhasOversized (len packetLength b : Nat) : Bool :=
  decide (((len : Int) - (b : Int)) % (2 : Int) ^ 64 < (packetLength : Int))

/-- Fuelled embedding of the scan loop of `parseMhasPackets`:
while at least 2 bytes remain, parse one packet header; if the declared
length exceeds the remaining bytes, resynchronize at one byte past the
packet's start; otherwise classify the type, note RAP-indicating types
(config = 1, sync = 6), and skip the payload. `none` means the fuel ran
out (shown below never to happen for fuel > remaining bytes). -/
def mhasScanLoop : Nat → Reader → List String → Bool →
    Option (List String × Bool)
  | 0, _, _, _ => none
  | fuel + 1, r, packetTypes, isRap =>
    if r.Base < r.Data.length then
      if r.Data.length < r.Base + 2 then some (packetTypes, isRap)
      else
        let startPos := r.Base
        let startOff := r.Off
        let packetType := (mhasStep r).1
        let packetLength := (mhasStep r).2.1
        let r3 := (mhasStep r).2.2
        if mhasOversized r.Data.length packetLength r3.Base then
          -- invalid packet, try to resync
          mhasScanLoop fuel ⟨r.Data, startPos + 1, startOff⟩ packetTypes isRap
        else
          mhasScanLoop fuel (r3.SkipByte packetLength)
            (packetTypes ++ [GetMpeghAudioPacketType packetType])
            (isRap || (packetType == 1 || packetType == 6))
    else some (packetTypes, isRap)

/-- The pure scan of `parseMhasPackets` over one finalized payload,
starting from a fresh reader. The supplied fuel is sufficient (see the
termination theorem), so the `getD` default is never taken. -/
def parseMhasScan (data : List Nat) : List String × Bool :=
  (mhasScanLoop (data.length + 1) ⟨data, 0, 0⟩ [] false).getD ([], false)

/-- `MhasPacketInfo`: one structural-unit record of the MHAS analyzer. -/
structure MhasPacketInfo where
  Pos : Int
  Pts : Int
  PacketTypes : List String
  deriving DecidableEq, Repr

/-- `MpeghAudioRecord` state: `RapEvents` models the rows written to the
lazily created `<PID>-rap.csv` via `LogRap` (modelled from the spec, the
file itself being I/O); the remaining fields mirror the Go struct. -/
structure MpeghAudioRecord where
  PcrTime : Int
  RapEvents : List IFrameInfo
  curpkt : Option PesPkt
  Pkts : List PesPkt
  MhasPackets : List MhasPacketInfo
  RapFrames : List Int
  WorkaroundPESFlag : Bool
  WorkaroundPES : List Nat
  deriving DecidableEq, Repr

/-- Shallow embedding of `MpeghAudioRecord.parseMhasPackets` as a state
update: scan the payload; if at least one packet was classified, append
the structural-unit record; return the RAP flag. -/
def MpeghAudioRecord.parseMhasPackets (s : MpeghAudioRecord) (data : List Nat)
    (pos pts : Int) : MpeghAudioRecord × Bool :=
  let packetTypes := (parseMhasScan data).1
  let isRap := (parseMhasScan data).2
  if 0 < packetTypes.length then
    ({ s with MhasPackets := s.MhasPackets ++ [⟨pos, pts, packetTypes⟩] }, isRap)
  else (s, isRap)

/-- The finalization block of `MpeghAudioRecord.Process`: scan the
accumulated payload for MHAS packets (appending the structural-unit
record when nonempty); on a RAP, log one event and record the position;
finally append the finalized packet to the history. -/
def MpeghAudioRecord.finalizeCur (s : MpeghAudioRecord) : MpeghAudioRecord :=
  match s.curpkt with
  | some cur =>
    let s1 := (s.parseMhasPackets cur.Data cur.Pos cur.Pts).1
    let isRap := (s.parseMhasPackets cur.Data cur.Pos cur.Pts).2
    let s2 :=
      if isRap then
        { s1 with RapEvents := s1.RapEvents ++ [⟨cur.Pos, cur.Pts, true⟩],
                  RapFrames := s1.RapFrames ++ [cur.Pos] }
      else s1
    { s2 with Pkts := s2.Pkts ++ [cur] }
  | none => s

/-- The new-packet block of `MpeghAudioRecord.Process` (same logic as the
H.266 one). -/
def MpeghAudioRecord.startNew (hp : HeaderParser) (s : MpeghAudioRecord)
    (pkt : TsPkt) : MpeghAudioRecord × List Nat :=
  let cur0 : PesPkt := { Pos := pkt.Pos, Pts := 0, Dts := 0, Pcr := s.PcrTime,
                         Size := 0, Data := [] }
  if minPesHeaderLen ≤ pkt.Data.length then
    if pkt.Data.take 3 = [0, 0, 1] then
      let (cur1, hlen) := cur0.Read hp pkt.Data
      ({ s with curpkt := some cur1 }, pkt.Data.drop hlen)
    else
      ({ s with curpkt := some cur0 }, pkt.Data)
  else
    ({ s with curpkt := some cur0, WorkaroundPESFlag := true, WorkaroundPES := [] },
     pkt.Data)

/-- The workaround block of `MpeghAudioRecord.Process` (same logic as the
H.266 one). -/
def MpeghAudioRecord.workaroundStage (hp : HeaderParser) (s : MpeghAudioRecord)
    (pdata : List Nat) : MpeghAudioRecord × List Nat :=
  if s.WorkaroundPESFlag then
    let buf := s.WorkaroundPES ++ pdata
    if minPesHeaderLen ≤ buf.length then
      if buf.take 3 = [0, 0, 1] then
        match s.curpkt with
        | some cur =>
          let (cur1, hlen) := cur.Read hp buf
          ({ s with curpkt := some cur1, WorkaroundPES := buf,
                    WorkaroundPESFlag := false },
           buf.drop hlen)
        | none =>
          ({ s with WorkaroundPES := buf }, [])
      else
        ({ s with WorkaroundPES := buf }, [])
    else
      ({ s with WorkaroundPES := buf }, [])
  else (s, pdata)

/-- The accumulation block of `MpeghAudioRecord.Process`. -/
def MpeghAudioRecord.accumulate (s : MpeghAudioRecord) (pdata : List Nat) :
    MpeghAudioRecord :=
  match s.curpkt with
  | some cur =>
    { s with curpkt := some { cur with Size := cur.Size + pdata.length,
                                       Data := cur.Data ++ pdata } }
  | none => s

/-- Shallow embedding of `MpeghAudioRecord.Process`. -/
def MpeghAudioRecord.Process (hp : HeaderParser) (s : MpeghAudioRecord)
    (pkt : TsPkt) : MpeghAudioRecord :=
  let step1 : MpeghAudioRecord × List Nat :=
    if pkt.PUSI = 1 then (s.finalizeCur).startNew hp pkt else (s, pkt.Data)
  let step2 := (step1.1).workaroundStage hp step1.2
  (step2.1).accumulate step2.2

/-- Shallow embedding of `MpeghAudioRecord.Flush`: scan the outstanding
packet's payload (appending the structural-unit record when nonempty) and
append the packet to the history; the returned RAP flag is discarded and
no random-access logging is performed. -/
def MpeghAudioRecord.Flush (s : MpeghAudioRecord) : MpeghAudioRecord :=
  match s.curpkt with
  | some cur =>
    let s1 := (s.parseMhasPackets cur.Data cur.Pos cur.Pts).1
    { s1 with Pkts := s1.Pkts ++ [cur] }
  | none => s

/-- The rows of the MPEG-H record's `<PID>.csv` report. -/
def MpeghAudioRecord.ReportRows (s : MpeghAudioRecord) : List (List Int) :=
  s.Pkts.map pesReportRow

/-- Whether `MpeghAudioRecord.Report` emits the `<PID>-mhas.csv` file:
the source guards the emission with `len(s.MhasPackets) > 0`. -/
def MpeghAudioRecord.emitsMhasCsv (s : MpeghAudioRecord) : Bool :=
  decide (0 < s.MhasPackets.length)

/-! ## Reader lemmas -/

theorem ReadBit_data (r : Reader) : (r.ReadBit).2.Data = r.Data := by
  unfold Reader.ReadBit
  split <;> rfl

theorem ReadBit_bitPos (r : Reader) : (r.ReadBit).2.bitPos = r.bitPos + 1 := by
  unfold Reader.ReadBit Reader.bitPos
  split <;> simp <;> omega

theorem ReadBit64_data (r : Reader) (n : Nat) : (r.ReadBit64 n).2.Data = r.Data := by
  induction n generalizing r with
  | zero => rfl
  | succ m ih =>
    show ((r.ReadBit).2.ReadBit64 m).2.Data = r.Data
    rw [ih, ReadBit_data]

theorem ReadBit64_bitPos (r : Reader) (n : Nat) :
    (r.ReadBit64 n).2.bitPos = r.bitPos + n := by
  induction n generalizing r with
  | zero => rfl
  | succ m ih =>
    show ((r.ReadBit).2.ReadBit64 m).2.bitPos = r.bitPos + (m + 1)
    rw [ih, ReadBit_bitPos]
    omega

theorem parseEscapedValue_data (r : Reader) (n m k : Nat) :
    (parseEscapedValue r n m k).2.Data = r.Data := by
  simp only [parseEscapedValue]
  split
  · split
    · simp only [ReadBit64_data]
    · simp only [ReadBit64_data]
  · simp only [ReadBit64_data]

theorem parseEscapedValue_bitPos_ge (r : Reader) (n m k : Nat) :
    r.bitPos + n ≤ (parseEscapedValue r n m k).2.bitPos := by
  simp only [parseEscapedValue]
  split
  · split
    · simp only [ReadBit64_bitPos]; omega
    · simp only [ReadBit64_bitPos]; omega
  · simp only [ReadBit64_bitPos]; omega

theorem mhasStep_data (r : Reader) : (mhasStep r).2.2.Data = r.Data := by
  simp only [mhasStep, parseEscapedValue_data]

theorem mhasStep_base (r : Reader) : r.Base + 2 ≤ (mhasStep r).2.2.Base := by
  have h1 := parseEscapedValue_bitPos_ge r 3 8 8
  have h2 := parseEscapedValue_bitPos_ge (parseEscapedValue r 3 8 8).2 2 8 32
  have h3 := parseEscapedValue_bitPos_ge
    (parseEscapedValue (parseEscapedValue r 3 8 8).2 2 8 32).2 11 24 24
  have hoff := r.Off.isLt
  have hoff3 := (mhasStep r).2.2.Off.isLt
  simp only [mhasStep] at hoff3 ⊢
  simp only [Reader.bitPos] at h1 h2 h3
  omega

/-- C4. The escaped-value decoder reads `n` bits as `v` and returns `v`
when `v` is below the saturation value `2^n - 1`, consuming exactly `n`
bits; on saturation it adds an `m`-bit extension (consuming `n + m`
bits), and on double saturation a further `k`-bit extension (consuming
`n + m + k` bits). With widths (3,8,8), the encoding of 5 (bits `101`)
decodes to 5 consuming only 3 bits, and the encoding of 10 (first field
saturated at 7, extension field 3) decodes to exactly 10. -/
theorem parseEscapedValue_spec (r : Reader) (n m k : Nat) :
    ((r.ReadBit64 n).1 < (1 <<< n) - 1 →
      parseEscapedValue r n m k = r.ReadBit64 n
      ∧ (parseEscapedValue r n m k).2.bitPos = r.bitPos + n)
    ∧ ((r.ReadBit64 n).1 = (1 <<< n) - 1 →
        ((r.ReadBit64 n).2.ReadBit64 m).1 < (1 <<< m) - 1 →
      (parseEscapedValue r n m k).1
        = (r.ReadBit64 n).1 + ((r.ReadBit64 n).2.ReadBit64 m).1
      ∧ (parseEscapedValue r n m k).2.bitPos = r.bitPos + n + m)
    ∧ ((r.ReadBit64 n).1 = (1 <<< n) - 1 →
        ((r.ReadBit64 n).2.ReadBit64 m).1 = (1 <<< m) - 1 →
      (parseEscapedValue r n m k).1
        = (r.ReadBit64 n).1 + ((r.ReadBit64 n).2.ReadBit64 m).1
          + (((r.ReadBit64 n).2.ReadBit64 m).2.ReadBit64 k).1
      ∧ (parseEscapedValue r n m k).2.bitPos = r.bitPos + n + m + k)
    ∧ parseEscapedValue ⟨[0xA0], 0, 0⟩ 3 8 8 = (5, ⟨[0xA0], 0, 3⟩)
    ∧ (parseEscapedValue ⟨[0xE0, 0x60], 0, 0⟩ 3 8 8).1 = 10
    ∧ (parseEscapedValue ⟨[0xE0, 0x60], 0, 0⟩ 3 8 8).2.bitPos = 11 := by
  refine ⟨?_, ?_, ?_, by decide, by decide, by decide⟩
  · intro h
    simp only [parseEscapedValue]
    rw [if_neg (Nat.ne_of_lt h)]
    exact ⟨rfl, ReadBit64_bitPos r n⟩
  · intro h1 h2
    simp only [parseEscapedValue]
    rw [if_pos h1, if_neg (Nat.ne_of_lt h2)]
    refine ⟨rfl, ?_⟩
    rw [ReadBit64_bitPos, ReadBit64_bitPos]
  · intro h1 h2
    simp only [parseEscapedValue]
    rw [if_pos h1, if_pos h2]
    refine ⟨rfl, ?_⟩
    rw [ReadBit64_bitPos, ReadBit64_bitPos, ReadBit64_bitPos]

/-- Witness for C4: decoding the 3-bit encoding of 5 hits the
non-saturated case and consumes exactly 3 bits. -/
theorem parseEscapedValue_spec_witness :
    parseEscapedValue ⟨[0xA0], 0, 0⟩ 3 8 8 = Reader.ReadBit64 ⟨[0xA0], 0, 0⟩ 3
    ∧ (parseEscapedValue ⟨[0xA0], 0, 0⟩ 3 8 8).2.bitPos
        = Reader.bitPos ⟨[0xA0], 0, 0⟩ + 3 :=
  (parseEscapedValue_spec ⟨[0xA0], 0, 0⟩ 3 8 8).1 (by decide)

/-- C5. Whenever a decoded `packetLength` exceeds the remaining unread
payload bytes, the MHAS scan loop resets the cursor to exactly one byte
past that packet's start offset (same bit offset) and continues parsing
from there rather than aborting; consequently the payload
`00 03 00 00`, whose first packet declares length 3 with only 2 bytes
remaining, still classifies the valid fill-data packet found after the
corrupt one. -/
theorem mhas_resync_on_oversized_length (fuel : Nat) (r : Reader)
    (types : List String) (isRap : Bool)
    (hin : r.Base + 2 ≤ r.Data.length)
    (hov : mhasOversized r.Data.length (mhasStep r).2.1 (mhasStep r).2.2.Base
            = true) :
    mhasScanLoop (fuel + 1) r types isRap
      = mhasScanLoop fuel ⟨r.Data, r.Base + 1, r.Off⟩ types isRap
    ∧ parseMhasScan [0x00, 0x03, 0x00, 0x00] = (["PACTYP_FILLDATA"], false) := by
  constructor
  · simp only [mhasScanLoop]
    rw [if_pos (show r.Base < r.Data.length by omega),
        if_neg (show ¬ r.Data.length < r.Base + 2 by omega), if_pos hov]
  · decide

/-- Witness for C5: the oversized first packet of `00 03 00 00` triggers
the resynchronization equation at byte offset 0. -/
theorem mhas_resync_on_oversized_length_witness :
    mhasScanLoop 5 ⟨[0x00, 0x03, 0x00, 0x00], 0, 0⟩ [] false
      = mhasScanLoop 4 ⟨[0x00, 0x03, 0x00, 0x00], 1, 0⟩ [] false
    ∧ parseMhasScan [0x00, 0x03, 0x00, 0x00] = (["PACTYP_FILLDATA"], false) :=
  mhas_resync_on_oversized_length 4 ⟨[0x00, 0x03, 0x00, 0x00], 0, 0⟩ [] false
    (by decide) (by decide)

/-- C10. The MHAS scan loop terminates: with any fuel exceeding the
number of unscanned bytes, the fuelled loop completes (never exhausts its
fuel), because on each iteration the byte cursor strictly increases — a
validated packet advances it past the at-least-2-byte header plus
`packetLength` bytes, and the resynchronization branch sets it to exactly
one byte past the packet's start offset. -/
theorem mhas_scan_terminates (fuel : Nat) (r : Reader) (types : List String)
    (isRap : Bool) (h : r.Data.length - r.Base < fuel) :
    (mhasScanLoop fuel r types isRap).isSome = true := by
  induction fuel generalizing r types isRap with
  | zero => exact absurd h (Nat.not_lt_zero _)
  | succ f ih =>
    simp only [mhasScanLoop]
    by_cases h1 : r.Base < r.Data.length
    · rw [if_pos h1]
      by_cases h2 : r.Data.length < r.Base + 2
      · rw [if_pos h2]; rfl
      · rw [if_neg h2]
        by_cases hov : mhasOversized r.Data.length (mhasStep r).2.1
            (mhasStep r).2.2.Base = true
        · rw [if_pos hov]
          exact ih _ _ _ (by simp only []; omega)
        · rw [if_neg hov]
          apply ih
          have hb := mhasStep_base r
          have hd := mhasStep_data r
          simp only [Reader.SkipByte, hd]
          omega
    · rw [if_neg h1]; rfl

/-- Witness for C10: the loop on the 4-byte resynchronization payload
completes with fuel 5. -/
theorem mhas_scan_terminates_witness :
    (mhasScanLoop 5 ⟨[0x00, 0x03, 0x00, 0x00], 0, 0⟩ [] false).isSome = true :=
  mhas_scan_terminates 5 ⟨[0x00, 0x03, 0x00, 0x00], 0, 0⟩ [] false (by decide)

/-! ## VVC NAL scan lemmas -/

theorem markerAtB_lt (d : List Nat) (p : Nat) (h : markerAtB d p = true) :
    p + 2 < d.length := by
  by_contra hc
  have he : d.getD (p + 2) 256 = 256 := List.getD_eq_default _ _ (by omega)
  simp only [markerAtB, Bool.and_eq_true, beq_iff_eq] at h
  rw [he] at h
  exact absurd h.2 (by decide)

/-- The scan loop, started at `pos` with enough fuel, returns exactly the
classification of each marker occurrence at or after `pos`, provided every
occurrence has at least 3 bytes after the marker and occurrences are at
least 4 bytes apart. -/
theorem parseVvcLoop_eq (d : List Nat)
    (H1 : ∀ p, markerAtB d p = true → p + 5 < d.length)
    (H2 : ∀ p q, markerAtB d p = true → markerAtB d q = true → p < q →
      p + 4 ≤ q) :
    ∀ fuel pos, d.length - pos < fuel →
      parseVvcLoop fuel d pos
        = ((List.range' pos (d.length - pos)).filter (markerAtB d)).map
            (fun p => GetVvcNalUnitType (d.getD (p + 4) 0)) := by
  intro fuel
  induction fuel with
  | zero => intro pos h; exact absurd h (Nat.not_lt_zero _)
  | succ f ih =>
    intro pos hf
    by_cases h5 : pos + 5 < d.length
    · by_cases hm : markerAtB d pos = true
      · have h4 : pos + 3 + 1 < d.length := by omega
        have hf4 : d.length - (pos + 4) < f := by omega
        have hnm1 : ¬ markerAtB d (pos + 1) = true := fun hq => by
          have := H2 pos (pos + 1) hm hq (by omega); omega
        have hnm2 : ¬ markerAtB d (pos + 1 + 1) = true := fun hq => by
          have := H2 pos (pos + 1 + 1) hm hq (by omega); omega
        have hnm3 : ¬ markerAtB d (pos + 1 + 1 + 1) = true := fun hq => by
          have := H2 pos (pos + 1 + 1 + 1) hm hq (by omega); omega
        have e1 : d.length - pos = (d.length - (pos + 1)) + 1 := by omega
        have e2 : d.length - (pos + 1) = (d.length - (pos + 1 + 1)) + 1 := by
          omega
        have e3 : d.length - (pos + 1 + 1) = (d.length - (pos + 1 + 1 + 1)) + 1 := by
          omega
        have e4 : d.length - (pos + 1 + 1 + 1)
            = (d.length - (pos + 1 + 1 + 1 + 1)) + 1 := by omega
        have e6 : pos + 3 + 1 = pos + 4 := by omega
        rw [parseVvcLoop, if_pos h5, if_pos hm, if_pos h4, e6, ih (pos + 4) hf4]
        rw [e1, List.range'_succ, List.filter_cons_of_pos hm, List.map_cons]
        rw [e2, List.range'_succ, List.filter_cons_of_neg hnm1]
        rw [e3, List.range'_succ, List.filter_cons_of_neg hnm2]
        rw [e4, List.range'_succ, List.filter_cons_of_neg hnm3]
      · have e1 : d.length - pos = (d.length - (pos + 1)) + 1 := by omega
        rw [parseVvcLoop, if_pos h5, if_neg hm, ih (pos + 1) (by omega), e1,
          List.range'_succ, List.filter_cons_of_neg hm]
    · rw [parseVvcLoop, if_neg h5]
      have hnil : (List.range' pos (d.length - pos)).filter (markerAtB d) = [] := by
        rw [List.filter_eq_nil_iff]
        intro a ha hm
        have h1 := H1 a hm
        have h2 := List.mem_range'.mp ha
        obtain ⟨i, hi, rfl⟩ := h2
        omega
      rw [hnil, List.map_nil]

theorem parseVvcLoop_classified (fuel : Nat) (d : List Nat) :
    ∀ pos, ∀ s ∈ parseVvcLoop fuel d pos, ∃ b, s = GetVvcNalUnitType b := by
  induction fuel with
  | zero => intro pos s hs; simp [parseVvcLoop] at hs
  | succ f ih =>
    intro pos s hs
    rw [parseVvcLoop] at hs
    split at hs
    · split at hs
      · split at hs
        · rcases List.mem_cons.mp hs with h | h
          · exact ⟨d.getD (pos + 3 + 1) 0, h⟩
          · exact ih _ s h
        · exact ih _ s hs
      · exact ih _ s hs
    · simp at hs

theorem GetVvcNalUnitType_index_lt (b : Nat) :
    (b >>> 3) &&& 0x1F < VvcNalUnitType.length := by
  have h : (b >>> 3) &&& 0x1F ≤ 0x1F := Nat.and_le_right
  have hl : VvcNalUnitType.length = 32 := by rfl
  omega

theorem GetVvcNalUnitType_mem (b : Nat) :
    GetVvcNalUnitType b ∈ VvcNalUnitType := by
  have h := GetVvcNalUnitType_index_lt b
  simp only [GetVvcNalUnitType]
  rw [if_pos h, List.getD_eq_getElem _ _ h]
  exact List.getElem_mem h

/-- C2 counterexample. The payload `00 00 01 00 48` contains exactly one
occurrence of the 3-byte marker, followed by exactly 2 bytes, yet
`ParseVvcNalUnits` returns no classification at all (the scan loop
requires strictly more lookahead), refuting the claim that every
occurrence followed by at least 2 bytes is classified. -/
theorem vvc_two_trailing_bytes_counterexample :
    markerPositions [0x00, 0x00, 0x01, 0x00, 0x48] = [0]
    ∧ ([0x00, 0x00, 0x01, 0x00, 0x48] : List Nat).length = 0 + 3 + 2
    ∧ ParseVvcNalUnits [0x00, 0x00, 0x01, 0x00, 0x48] = [] := by
  refine ⟨by decide, by decide, by decide⟩

/-- C2 (amended). For a byte sequence in which every occurrence of the
marker `00 00 01` is followed by at least 3 bytes (`p + 5 < length`) and
distinct occurrences start at least 4 bytes apart, `ParseVvcNalUnits`
returns exactly one classification per occurrence, in encounter order,
each obtained from the table at index `(secondHeaderByte >> 3) & 0x1F`;
in particular a second header byte `0x48` yields index 9,
clean-random-access (`cra_nut`). -/
theorem vvc_scan_classifies_markers (d : List Nat)
    (H1 : ∀ p, p < d.length → markerAtB d p = true → p + 5 < d.length)
    (H2 : ∀ p, p < d.length → ∀ q, q < d.length → markerAtB d p = true →
      markerAtB d q = true → p < q → p + 4 ≤ q) :
    ParseVvcNalUnits d
      = (markerPositions d).map (fun p => GetVvcNalUnitType (d.getD (p + 4) 0))
    ∧ ((0x48 >>> 3) &&& 0x1F) = 9
    ∧ GetVvcNalUnitType 0x48 = "cra_nut" := by
  have H1u : ∀ p, markerAtB d p = true → p + 5 < d.length := fun p hp =>
    H1 p (by have := markerAtB_lt d p hp; omega) hp
  have H2u : ∀ p q, markerAtB d p = true → markerAtB d q = true → p < q →
      p + 4 ≤ q := fun p q hp hq hlt =>
    H2 p (by have := markerAtB_lt d p hp; omega)
      q (by have := markerAtB_lt d q hq; omega) hp hq hlt
  refine ⟨?_, by decide, by decide⟩
  have h := parseVvcLoop_eq d H1u H2u (d.length + 1) 0 (by omega)
  rw [ParseVvcNalUnits, h, markerPositions, List.range_eq_range']
  rfl

/-- Witness for C2: a payload with two well-separated markers, both with
second header byte `0x48`, classifies to two `cra_nut` entries. -/
theorem vvc_scan_classifies_markers_witness :
    ParseVvcNalUnits [0, 0, 1, 0, 0x48, 0, 0, 1, 0, 0x48, 0, 0]
      = (markerPositions [0, 0, 1, 0, 0x48, 0, 0, 1, 0, 0x48, 0, 0]).map
          (fun p =>
            GetVvcNalUnitType (([0, 0, 1, 0, 0x48, 0, 0, 1, 0, 0x48, 0, 0] :
              List Nat).getD (p + 4) 0))
    ∧ ParseVvcNalUnits [0, 0, 1, 0, 0x48, 0, 0, 1, 0, 0x48, 0, 0]
        = ["cra_nut", "cra_nut"]
    ∧ markerPositions [0, 0, 1, 0, 0x48, 0, 0, 1, 0, 0x48, 0, 0] = [0, 5] :=
  ⟨(vvc_scan_classifies_markers [0, 0, 1, 0, 0x48, 0, 0, 1, 0, 0x48, 0, 0]
      (by decide) (by decide)).1, by decide, by decide⟩

/-- C9. For every input byte `b`, the computed NAL-type index
`(b >> 3) & 0x1F` lies below the 32-entry table length, the "unknown"
fallback is never taken (`GetVvcNalUnitType` always returns the indexed
table entry), and hence every classification emitted by
`ParseVvcNalUnits` is a named table entry. -/
theorem vvc_nal_type_total (b : Nat) (d : List Nat) :
    ((b >>> 3) &&& 0x1F) < VvcNalUnitType.length
    ∧ GetVvcNalUnitType b = VvcNalUnitType.getD ((b >>> 3) &&& 0x1F) "unknown"
    ∧ GetVvcNalUnitType b ∈ VvcNalUnitType
    ∧ ∀ s ∈ ParseVvcNalUnits d, s ∈ VvcNalUnitType := by
  refine ⟨GetVvcNalUnitType_index_lt b, ?_, GetVvcNalUnitType_mem b, ?_⟩
  · simp only [GetVvcNalUnitType]
    rw [if_pos (GetVvcNalUnitType_index_lt b)]
  · intro s hs
    obtain ⟨c, rfl⟩ := parseVvcLoop_classified (d.length + 1) d 0 s hs
    exact GetVvcNalUnitType_mem c

/-- Witness for C9: instantiated at header byte `0x48` and a payload with
one CRA NAL unit. -/
theorem vvc_nal_type_total_witness :
    "cra_nut" ∈ VvcNalUnitType :=
  (vvc_nal_type_total 0x48 [0, 0, 1, 0, 0x48, 0]).2.2.2 "cra_nut" (by decide)

/-! ## Record-stage preservation lemmas -/

theorem h266_startNew_preserves (hp : HeaderParser) (s : H266Record)
    (pkt : TsPkt) :
    ((s.startNew hp pkt).1).IFrames = s.IFrames
    ∧ ((s.startNew hp pkt).1).NalInfos = s.NalInfos
    ∧ ((s.startNew hp pkt).1).Pkts = s.Pkts := by
  simp only [H266Record.startNew, PesPkt.Read]
  repeat' split
  all_goals exact ⟨rfl, rfl, rfl⟩

theorem h266_workaround_preserves (hp : HeaderParser) (s : H266Record)
    (pdata : List Nat) :
    ((s.workaroundStage hp pdata).1).IFrames = s.IFrames
    ∧ ((s.workaroundStage hp pdata).1).NalInfos = s.NalInfos
    ∧ ((s.workaroundStage hp pdata).1).Pkts = s.Pkts := by
  simp only [H266Record.workaroundStage, PesPkt.Read]
  repeat' split
  all_goals exact ⟨rfl, rfl, rfl⟩

theorem h266_accumulate_preserves (s : H266Record) (pdata : List Nat) :
    ((s.accumulate pdata)).IFrames = s.IFrames
    ∧ ((s.accumulate pdata)).NalInfos = s.NalInfos
    ∧ ((s.accumulate pdata)).Pkts = s.Pkts := by
  simp only [H266Record.accumulate]
  repeat' split
  all_goals exact ⟨rfl, rfl, rfl⟩

theorem mpegh_startNew_preserves (hp : HeaderParser) (s : MpeghAudioRecord)
    (pkt : TsPkt) :
    ((s.startNew hp pkt).1).MhasPackets = s.MhasPackets
    ∧ ((s.startNew hp pkt).1).Pkts = s.Pkts
    ∧ ((s.startNew hp pkt).1).RapEvents = s.RapEvents
    ∧ ((s.startNew hp pkt).1).RapFrames = s.RapFrames := by
  simp only [MpeghAudioRecord.startNew, PesPkt.Read]
  repeat' split
  all_goals exact ⟨rfl, rfl, rfl, rfl⟩

theorem mpegh_workaround_preserves (hp : HeaderParser) (s : MpeghAudioRecord)
    (pdata : List Nat) :
    ((s.workaroundStage hp pdata).1).MhasPackets = s.MhasPackets
    ∧ ((s.workaroundStage hp pdata).1).Pkts = s.Pkts
    ∧ ((s.workaroundStage hp pdata).1).RapEvents = s.RapEvents
    ∧ ((s.workaroundStage hp pdata).1).RapFrames = s.RapFrames := by
  simp only [MpeghAudioRecord.workaroundStage, PesPkt.Read]
  repeat' split
  all_goals exact ⟨rfl, rfl, rfl, rfl⟩

theorem mpegh_accumulate_preserves (s : MpeghAudioRecord) (pdata : List Nat) :
    ((s.accumulate pdata)).MhasPackets = s.MhasPackets
    ∧ ((s.accumulate pdata)).Pkts = s.Pkts
    ∧ ((s.accumulate pdata)).RapEvents = s.RapEvents
    ∧ ((s.accumulate pdata)).RapFrames = s.RapFrames := by
  simp only [MpeghAudioRecord.accumulate]
  repeat' split
  all_goals exact ⟨rfl, rfl, rfl, rfl⟩

theorem mpegh_parseMhas_preserves (s : MpeghAudioRecord) (data : List Nat)
    (pos pts : Int) :
    ((s.parseMhasPackets data pos pts).1).Pkts = s.Pkts
    ∧ ((s.parseMhasPackets data pos pts).1).RapEvents = s.RapEvents
    ∧ ((s.parseMhasPackets data pos pts).1).RapFrames = s.RapFrames := by
  simp only [MpeghAudioRecord.parseMhasPackets]
  repeat' split
  all_goals exact ⟨rfl, rfl, rfl⟩

theorem parseMhasPackets_isRap (s : MpeghAudioRecord) (data : List Nat)
    (pos pts : Int) :
    (s.parseMhasPackets data pos pts).2 = (parseMhasScan data).2 := by
  simp only [MpeghAudioRecord.parseMhasPackets]
  repeat' split
  all_goals rfl

theorem foldl_rap_append (l : List String) (acc : List IFrameInfo)
    (e : IFrameInfo) :
    l.foldl (fun a nal => if isVvcRapNal nal then a ++ [e] else a) acc
      = acc ++ (l.filter isVvcRapNal).map (fun _ => e) := by
  induction l generalizing acc with
  | nil => simp
  | cons x t ih =>
    by_cases h : isVvcRapNal x
    · rw [List.foldl_cons, if_pos h, ih, List.filter_cons_of_pos h,
        List.map_cons]
      simp
    · rw [List.foldl_cons, if_neg h, ih, List.filter_cons_of_neg h]

/-! ## Claim theorems on the record engines -/

/-- C1 counterexample. A finalized PES payload holding two
IDR-no-leading-pictures NAL units causes `H266Record.Process` to record
two random-access events, not exactly one for the whole payload. -/
theorem h266_rap_claim_counterexample :
    (ParseVvcNalUnits [0, 0, 1, 0, 0x40, 0, 0, 1, 0, 0x40, 0]).filter
        isVvcRapNal = ["idr_n_lp", "idr_n_lp"]
    ∧ (H266Record.Process (fun _ => (19, 0, 0))
        ⟨0, [], some ⟨0, 0, 0, 0, 11, [0, 0, 1, 0, 0x40, 0, 0, 1, 0, 0x40, 0]⟩,
          [], [], false, []⟩
        ⟨200, 1, []⟩).IFrames.length = 2 :=
  ⟨by decide, by decide⟩

/-- C1 (amended). When a `PUSI` packet finalizes the current PES payload,
the H.266 analyzer records one `RandomAccessEvent` per RAP-triggering NAL
classification (`idr_w_radl`, `idr_n_lp`, `cra_nut`) — a payload with `k`
RAP classifications yields exactly `k` events, each carrying the whole
payload's `Pos`/`Pts` — rather than exactly one event per payload. -/
theorem h266_rap_event_per_nal_classification (hp : HeaderParser)
    (s : H266Record) (pkt : TsPkt) (p : PesPkt)
    (h : pkt.PUSI = 1) (hc : s.curpkt = some p) :
    (H266Record.Process hp s pkt).IFrames
      = s.IFrames ++ ((ParseVvcNalUnits p.Data).filter isVvcRapNal).map
          (fun _ => (⟨p.Pos, p.Pts, true⟩ : IFrameInfo)) := by
  simp only [H266Record.Process]
  rw [if_pos h, (h266_accumulate_preserves _ _).1,
    (h266_workaround_preserves hp _ _).1, (h266_startNew_preserves hp _ _).1]
  unfold H266Record.finalizeCur
  rw [hc]
  exact foldl_rap_append _ _ _

/-- Witness for C1: a payload with one CRA NAL unit yields exactly one
logged event carrying the payload's position and timestamp. -/
theorem h266_rap_event_per_nal_classification_witness :
    (H266Record.Process (fun _ => (19, 0, 0))
        ⟨0, [], some ⟨5, 77, 0, 0, 6, [0, 0, 1, 0, 0x48, 0]⟩, [], [], false, []⟩
        ⟨100, 1, []⟩).IFrames = [⟨5, 77, true⟩] :=
  (h266_rap_event_per_nal_classification (fun _ => (19, 0, 0)) _ _
      ⟨5, 77, 0, 0, 6, [0, 0, 1, 0, 0x48, 0]⟩ rfl rfl).trans (by decide)

/-- C3 counterexample. For an outstanding packet whose payload holds a
CRA NAL unit, `H266Record.Flush` records no random-access event while the
`PUSI`-triggered finalization in `Process` does, so flush finalization
does not produce the same event-recording effects. -/
theorem flush_rap_asymmetry_counterexample :
    (H266Record.Flush
        ⟨0, [], some ⟨3, 42, 0, 0, 6, [0, 0, 1, 0, 0x48, 0]⟩, [], [], false, []⟩
      ).IFrames = []
    ∧ (H266Record.Process (fun _ => (19, 0, 0))
        ⟨0, [], some ⟨3, 42, 0, 0, 6, [0, 0, 1, 0, 0x48, 0]⟩, [], [], false, []⟩
        ⟨100, 1, []⟩).IFrames ≠ [] :=
  ⟨by decide, by decide⟩

/-- C3 (amended). For an outstanding current packet, `flush()` matches
`PUSI`-triggered finalization in both analyzers for the codec analysis,
the structural-unit record appended to history, and the append to the
PES-packet history, but performs no random-access detection or event
recording — which `PUSI`-triggered finalization does perform. -/
theorem flush_finalize_equiv_except_rap (hp : HeaderParser)
    (s : H266Record) (t : MpeghAudioRecord) (pkt pkt2 : TsPkt) (p q : PesPkt)
    (h : pkt.PUSI = 1) (h2 : pkt2.PUSI = 1)
    (hc : s.curpkt = some p) (ht : t.curpkt = some q) :
    (H266Record.Flush s).NalInfos = (H266Record.Process hp s pkt).NalInfos
    ∧ (H266Record.Flush s).Pkts = (H266Record.Process hp s pkt).Pkts
    ∧ (H266Record.Flush s).IFrames = s.IFrames
    ∧ (H266Record.Process hp s pkt).IFrames
        = s.IFrames ++ ((ParseVvcNalUnits p.Data).filter isVvcRapNal).map
            (fun _ => (⟨p.Pos, p.Pts, true⟩ : IFrameInfo))
    ∧ (MpeghAudioRecord.Flush t).MhasPackets
        = (MpeghAudioRecord.Process hp t pkt2).MhasPackets
    ∧ (MpeghAudioRecord.Flush t).Pkts
        = (MpeghAudioRecord.Process hp t pkt2).Pkts
    ∧ (MpeghAudioRecord.Flush t).RapEvents = t.RapEvents
    ∧ (MpeghAudioRecord.Flush t).RapFrames = t.RapFrames
    ∧ (MpeghAudioRecord.Process hp t pkt2).RapFrames
        = t.RapFrames ++ (if (parseMhasScan q.Data).2 then [q.Pos] else []) := by
  have hProcNal : (H266Record.Process hp s pkt).NalInfos = (s.finalizeCur).NalInfos := by
    simp only [H266Record.Process]
    rw [if_pos h, (h266_accumulate_preserves _ _).2.1,
      (h266_workaround_preserves hp _ _).2.1,
      (h266_startNew_preserves hp _ _).2.1]
  have hProcPkts : (H266Record.Process hp s pkt).Pkts = (s.finalizeCur).Pkts := by
    simp only [H266Record.Process]
    rw [if_pos h, (h266_accumulate_preserves _ _).2.2,
      (h266_workaround_preserves hp _ _).2.2,
      (h266_startNew_preserves hp _ _).2.2]
  have hProcIFr : (H266Record.Process hp s pkt).IFrames = (s.finalizeCur).IFrames := by
    simp only [H266Record.Process]
    rw [if_pos h, (h266_accumulate_preserves _ _).1,
      (h266_workaround_preserves hp _ _).1,
      (h266_startNew_preserves hp _ _).1]
  have hProcMh : (MpeghAudioRecord.Process hp t pkt2).MhasPackets
      = (t.finalizeCur).MhasPackets := by
    simp only [MpeghAudioRecord.Process]
    rw [if_pos h2, (mpegh_accumulate_preserves _ _).1,
      (mpegh_workaround_preserves hp _ _).1,
      (mpegh_startNew_preserves hp _ _).1]
  have hProcMPkts : (MpeghAudioRecord.Process hp t pkt2).Pkts
      = (t.finalizeCur).Pkts := by
    simp only [MpeghAudioRecord.Process]
    rw [if_pos h2, (mpegh_accumulate_preserves _ _).2.1,
      (mpegh_workaround_preserves hp _ _).2.1,
      (mpegh_startNew_preserves hp _ _).2.1]
  have hProcRapF : (MpeghAudioRecord.Process hp t pkt2).RapFrames
      = (t.finalizeCur).RapFrames := by
    simp only [MpeghAudioRecord.Process]
    rw [if_pos h2, (mpegh_accumulate_preserves _ _).2.2.2,
      (mpegh_workaround_preserves hp _ _).2.2.2,
      (mpegh_startNew_preserves hp _ _).2.2.2]
  refine ⟨?_, ?_, ?_, ?_, ?_, ?_, ?_, ?_, ?_⟩
  · rw [hProcNal]
    unfold H266Record.Flush H266Record.finalizeCur
    rw [hc]
  · rw [hProcPkts]
    unfold H266Record.Flush H266Record.finalizeCur
    rw [hc]
  · unfold H266Record.Flush
    rw [hc]
  · rw [hProcIFr]
    unfold H266Record.finalizeCur
    rw [hc]
    exact foldl_rap_append _ _ _
  · rw [hProcMh]
    simp only [MpeghAudioRecord.Flush, MpeghAudioRecord.finalizeCur, ht]
    split <;> rfl
  · rw [hProcMPkts]
    simp only [MpeghAudioRecord.Flush, MpeghAudioRecord.finalizeCur, ht]
    split <;> rfl
  · unfold MpeghAudioRecord.Flush
    rw [ht]
    exact (mpegh_parseMhas_preserves t q.Data q.Pos q.Pts).2.1
  · unfold MpeghAudioRecord.Flush
    rw [ht]
    exact (mpegh_parseMhas_preserves t q.Data q.Pos q.Pts).2.2
  · rw [hProcRapF]
    simp only [MpeghAudioRecord.finalizeCur, ht, parseMhasPackets_isRap]
    split <;>
      simp [(mpegh_parseMhas_preserves t q.Data q.Pos q.Pts).2.2]

/-- Witness for C3: concrete flush vs `PUSI` finalization on states whose
outstanding payloads contain a CRA NAL unit (H.266) and a config packet
(MPEG-H). -/
theorem flush_finalize_equiv_except_rap_witness :
    (H266Record.Flush
        ⟨0, [], some ⟨7, 9, 0, 0, 6, [0, 0, 1, 0, 0x48, 0]⟩, [], [], false, []⟩
      ).NalInfos
      = (H266Record.Process (fun _ => (19, 0, 0))
          ⟨0, [], some ⟨7, 9, 0, 0, 6, [0, 0, 1, 0, 0x48, 0]⟩, [], [], false, []⟩
          ⟨50, 1, []⟩).NalInfos
    ∧ (MpeghAudioRecord.Flush
        ⟨0, [], some ⟨8, 10, 0, 0, 2, [0x20, 0x00]⟩, [], [], [], false, []⟩
      ).RapFrames = []
    ∧ (MpeghAudioRecord.Process (fun _ => (19, 0, 0))
        ⟨0, [], some ⟨8, 10, 0, 0, 2, [0x20, 0x00]⟩, [], [], [], false, []⟩
        ⟨60, 1, []⟩).RapFrames = [] ++ (if (parseMhasScan [0x20, 0x00]).2
          then [(8 : Int)] else []) := by
  have hw := flush_finalize_equiv_except_rap (fun _ => (19, 0, 0))
    ⟨0, [], some ⟨7, 9, 0, 0, 6, [0, 0, 1, 0, 0x48, 0]⟩, [], [], false, []⟩
    ⟨0, [], some ⟨8, 10, 0, 0, 2, [0x20, 0x00]⟩, [], [], [], false, []⟩
    ⟨50, 1, []⟩ ⟨60, 1, []⟩
    ⟨7, 9, 0, 0, 6, [0, 0, 1, 0, 0x48, 0]⟩ ⟨8, 10, 0, 0, 2, [0x20, 0x00]⟩
    rfl rfl rfl rfl
  exact ⟨hw.1, hw.2.2.2.2.2.2.2.1, hw.2.2.2.2.2.2.2.2⟩

/-- C6 counterexample. A short `PUSI` payload (17 bytes) followed by a
3-byte continuation drives the workaround buffer to 20 bytes; the header
parse succeeds and workaround mode ends, but the buffer is NOT cleared:
it remains non-empty (20 bytes, above the 19-byte threshold) after the
call, refuting the claimed invariant. -/
theorem workaround_buffer_retained_counterexample :
    (H266Record.Process (fun _ => (19, 1000, 900))
        (H266Record.Process (fun _ => (19, 1000, 900))
          ⟨0, [], none, [], [], false, []⟩
          ⟨0, 1, [0, 0, 1, 4, 5, 6, 7, 8, 9, 10, 11, 12, 13, 14, 15, 16, 17]⟩)
        ⟨17, 0, [9, 9, 9]⟩).WorkaroundPESFlag = false
    ∧ (H266Record.Process (fun _ => (19, 1000, 900))
        (H266Record.Process (fun _ => (19, 1000, 900))
          ⟨0, [], none, [], [], false, []⟩
          ⟨0, 1, [0, 0, 1, 4, 5, 6, 7, 8, 9, 10, 11, 12, 13, 14, 15, 16, 17]⟩)
        ⟨17, 0, [9, 9, 9]⟩).WorkaroundPES.length = 20
    ∧ (H266Record.Process (fun _ => (19, 1000, 900))
        (H266Record.Process (fun _ => (19, 1000, 900))
          ⟨0, [], none, [], [], false, []⟩
          ⟨0, 1, [0, 0, 1, 4, 5, 6, 7, 8, 9, 10, 11, 12, 13, 14, 15, 16, 17]⟩)
        ⟨17, 0, [9, 9, 9]⟩).WorkaroundPES ≠ [] :=
  ⟨by decide, by decide, by decide⟩

/-- C6 (amended). In both analyzers, when the workaround buffer (after
appending the call's payload) reaches 19 bytes and the header parse
succeeds, workaround mode ends (the flag is cleared — the buffer's
contents persist until the next workaround entry resets them), only the
post-header surplus bytes are handed to the current `PesPacket`, and
normal per-call accumulation resumes; the histories are untouched. -/
theorem workaround_exit_behavior (hp : HeaderParser)
    (s : H266Record) (pkt : TsPkt) (p : PesPkt)
    (t : MpeghAudioRecord) (pkt2 : TsPkt) (q : PesPkt)
    (hflag : s.WorkaroundPESFlag = true) (hpusi : ¬ pkt.PUSI = 1)
    (hc : s.curpkt = some p)
    (hlen19 : minPesHeaderLen ≤ (s.WorkaroundPES ++ pkt.Data).length)
    (hmark : (s.WorkaroundPES ++ pkt.Data).take 3 = [0, 0, 1])
    (tflag : t.WorkaroundPESFlag = true) (tpusi : ¬ pkt2.PUSI = 1)
    (tc : t.curpkt = some q)
    (tlen19 : minPesHeaderLen ≤ (t.WorkaroundPES ++ pkt2.Data).length)
    (tmark : (t.WorkaroundPES ++ pkt2.Data).take 3 = [0, 0, 1]) :
    (H266Record.Process hp s pkt).WorkaroundPESFlag = false
    ∧ (H266Record.Process hp s pkt).WorkaroundPES = s.WorkaroundPES ++ pkt.Data
    ∧ (H266Record.Process hp s pkt).curpkt = some
        ⟨p.Pos, (hp (s.WorkaroundPES ++ pkt.Data)).2.1,
         (hp (s.WorkaroundPES ++ pkt.Data)).2.2, p.Pcr,
         p.Size + (((s.WorkaroundPES ++ pkt.Data).drop
           (hp (s.WorkaroundPES ++ pkt.Data)).1).length : Int),
         p.Data ++ (s.WorkaroundPES ++ pkt.Data).drop
           (hp (s.WorkaroundPES ++ pkt.Data)).1⟩
    ∧ (H266Record.Process hp s pkt).Pkts = s.Pkts
    ∧ (H266Record.Process hp s pkt).NalInfos = s.NalInfos
    ∧ (H266Record.Process hp s pkt).IFrames = s.IFrames
    ∧ (MpeghAudioRecord.Process hp t pkt2).WorkaroundPESFlag = false
    ∧ (MpeghAudioRecord.Process hp t pkt2).WorkaroundPES
        = t.WorkaroundPES ++ pkt2.Data
    ∧ (MpeghAudioRecord.Process hp t pkt2).curpkt = some
        ⟨q.Pos, (hp (t.WorkaroundPES ++ pkt2.Data)).2.1,
         (hp (t.WorkaroundPES ++ pkt2.Data)).2.2, q.Pcr,
         q.Size + (((t.WorkaroundPES ++ pkt2.Data).drop
           (hp (t.WorkaroundPES ++ pkt2.Data)).1).length : Int),
         q.Data ++ (t.WorkaroundPES ++ pkt2.Data).drop
           (hp (t.WorkaroundPES ++ pkt2.Data)).1⟩
    ∧ (MpeghAudioRecord.Process hp t pkt2).Pkts = t.Pkts
    ∧ (MpeghAudioRecord.Process hp t pkt2).MhasPackets = t.MhasPackets
    ∧ (MpeghAudioRecord.Process hp t pkt2).RapFrames = t.RapFrames := by
  simp only [H266Record.Process, MpeghAudioRecord.Process]
  rw [if_neg hpusi, if_neg tpusi]
  simp only [H266Record.workaroundStage, MpeghAudioRecord.workaroundStage]
  rw [if_pos hflag, if_pos tflag, if_pos hlen19, if_pos tlen19,
    if_pos hmark, if_pos tmark, hc, tc]
  simp only [PesPkt.Read, H266Record.accumulate, MpeghAudioRecord.accumulate]
  and_intros <;> trivial

/-- Witness for C6: a 17-byte workaround buffer plus a 3-byte
continuation crosses the 19-byte threshold; the flag clears, the buffer
keeps all 20 bytes, and only the 1 post-header byte reaches the current
packet. -/
theorem workaround_exit_behavior_witness :
    (H266Record.Process (fun _ => (19, 1000, 900))
        ⟨0, [], some ⟨0, 0, 0, 0, 0, []⟩, [], [], true,
          [0, 0, 1, 4, 5, 6, 7, 8, 9, 10, 11, 12, 13, 14, 15, 16, 17]⟩
        ⟨17, 0, [9, 9, 9]⟩).WorkaroundPESFlag = false
    ∧ (H266Record.Process (fun _ => (19, 1000, 900))
        ⟨0, [], some ⟨0, 0, 0, 0, 0, []⟩, [], [], true,
          [0, 0, 1, 4, 5, 6, 7, 8, 9, 10, 11, 12, 13, 14, 15, 16, 17]⟩
        ⟨17, 0, [9, 9, 9]⟩).WorkaroundPES
        = [0, 0, 1, 4, 5, 6, 7, 8, 9, 10, 11, 12, 13, 14, 15, 16, 17] ++ [9, 9, 9]
    ∧ (H266Record.Process (fun _ => (19, 1000, 900))
        ⟨0, [], some ⟨0, 0, 0, 0, 0, []⟩, [], [], true,
          [0, 0, 1, 4, 5, 6, 7, 8, 9, 10, 11, 12, 13, 14, 15, 16, 17]⟩
        ⟨17, 0, [9, 9, 9]⟩).curpkt = some ⟨0, 1000, 900, 0, 1, [9]⟩
    ∧ (MpeghAudioRecord.Process (fun _ => (19, 1000, 900))
        ⟨0, [], some ⟨0, 0, 0, 0, 0, []⟩, [], [], [], true,
          [0, 0, 1, 4, 5, 6, 7, 8, 9, 10, 11, 12, 13, 14, 15, 16, 17]⟩
        ⟨17, 0, [9, 9, 9]⟩).WorkaroundPESFlag = false := by
  have hw := workaround_exit_behavior (fun _ => (19, 1000, 900))
    ⟨0, [], some ⟨0, 0, 0, 0, 0, []⟩, [], [], true,
      [0, 0, 1, 4, 5, 6, 7, 8, 9, 10, 11, 12, 13, 14, 15, 16, 17]⟩
    ⟨17, 0, [9, 9, 9]⟩ ⟨0, 0, 0, 0, 0, []⟩
    ⟨0, [], some ⟨0, 0, 0, 0, 0, []⟩, [], [], [], true,
      [0, 0, 1, 4, 5, 6, 7, 8, 9, 10, 11, 12, 13, 14, 15, 16, 17]⟩
    ⟨17, 0, [9, 9, 9]⟩ ⟨0, 0, 0, 0, 0, []⟩
    rfl (by decide) rfl (by decide) (by decide)
    rfl (by decide) rfl (by decide) (by decide)
  exact ⟨hw.1, hw.2.1, hw.2.2.1.trans (by decide), hw.2.2.2.2.2.2.1⟩

/-- C7. In the per-PID timing report row of a finalized PES packet, the
reported PCR is the stored raw `Pcr` divided by 300 (toward-zero integer
division, as for Go `int64`), the reported DTS is `Pts` when the stored
`Dts` is 0 and `Dts` otherwise, and the drift column is the reported DTS
minus the reported PCR; both analyzers' reports map `pesReportRow` over
their packet histories. -/
theorem pes_report_row_spec (p : PesPkt) (s : H266Record)
    (t : MpeghAudioRecord) :
    (pesReportRow p).getD 2 0 = Int.tdiv p.Pcr 300
    ∧ (pesReportRow p).getD 4 0 = (if p.Dts = 0 then p.Pts else p.Dts)
    ∧ (pesReportRow p).getD 5 0
        = (pesReportRow p).getD 4 0 - (pesReportRow p).getD 2 0
    ∧ s.ReportRows = s.Pkts.map pesReportRow
    ∧ t.ReportRows = t.Pkts.map pesReportRow :=
  ⟨rfl, rfl, rfl, rfl, rfl⟩

/-- C8. The MHAS analyzer appends a structural-unit record to its history
exactly when at least one MHAS packet was classified from the payload,
and the `<PID>-mhas.csv` report is emitted exactly when that history is
nonempty. -/
theorem mhas_history_append_iff (s : MpeghAudioRecord) (data : List Nat)
    (pos pts : Int) :
    ((s.parseMhasPackets data pos pts).1.MhasPackets
        = s.MhasPackets ++ [⟨pos, pts, (parseMhasScan data).1⟩]
      ↔ (parseMhasScan data).1 ≠ [])
    ∧ ((s.parseMhasPackets data pos pts).1.MhasPackets = s.MhasPackets
      ↔ (parseMhasScan data).1 = [])
    ∧ (s.emitsMhasCsv = true ↔ s.MhasPackets ≠ []) := by
  by_cases hl : (parseMhasScan data).1 = []
  · have hred : (s.parseMhasPackets data pos pts).1 = s := by
      simp only [MpeghAudioRecord.parseMhasPackets]
      rw [if_neg (by rw [hl]; simp)]
    refine ⟨?_, ?_, ?_⟩
    · rw [hred]
      constructor
      · intro he
        have hle := congrArg List.length he
        simp at hle
      · intro hne; exact absurd hl hne
    · rw [hred]; simp [hl]
    · simp [MpeghAudioRecord.emitsMhasCsv, List.length_pos]
  · have hred : (s.parseMhasPackets data pos pts).1
        = { s with MhasPackets
              := s.MhasPackets ++ [⟨pos, pts, (parseMhasScan data).1⟩] } := by
      simp only [MpeghAudioRecord.parseMhasPackets]
      rw [if_pos (List.length_pos.mpr hl)]
    refine ⟨?_, ?_, ?_⟩
    · rw [hred]; simp [hl]
    · rw [hred]
      constructor
      · intro he
        have hle := congrArg List.length he
        simp at hle
      · intro he; exact absurd he hl
    · simp [MpeghAudioRecord.emitsMhasCsv, List.length_pos]


end Mpts
